import Mathlib

/-!
Verification development for the image-to-PDF organizer.

This file gives a shallow embedding, in Lean, of the conversion pipeline
(`src/services/pdf_converter.py`), the image validation helper
(`src/services/image_handler.py`), the EXIF auto-rotation and watermarking
helpers (`src/services/advanced_processor.py`) and the plugin manager
(`src/plugin_system.py`), together with theorems about them.

Pixel-level semantics of the imaging library are abstracted into a free
`Content` datatype: each operation (white-background composite, RGB
conversion, LANCZOS resize, rotation) is a distinct constructor, so two
prepared images are equal exactly when the same operations were applied to
the same source in the same order.  Python floats are modelled by exact
rationals, and Python's `int()` truncation by an explicit truncation on `ℚ`.
-/

namespace ImagePdf

/-- Color modes relevant to the pipeline, as PIL mode strings: `RGB`,
`RGBA`, and everything else (`P`, `L`, `CMYK`, ...). -/
inductive Mode where
  | RGB
  | RGBA
  | other
  deriving DecidableEq, Repr

/-- Abstract pixel content.  Every image operation performed by the code is
recorded symbolically, so equality of `Content` values means "same source,
same operations, same order". -/
inductive Content where
  | source (id : Nat)
  | whiteComposite (c : Content)
  | rgbConverted (c : Content)
  | resized (w h : Nat) (c : Content)
  | rotated (deg : Nat) (c : Content)
  deriving DecidableEq, Repr

/-- An in-memory image: dimensions, color mode, abstract pixel content. -/
structure Img where
  width : Nat
  height : Nat
  mode : Mode
  content : Content
  deriving DecidableEq, Repr

/-- `PDFConverter.PAGE_SIZES`: the table of named page sizes in points. -/
def PAGE_SIZES : List (String × Nat × Nat) :=
  [("A4", 595, 842), ("LETTER", 612, 792), ("LEGAL", 612, 1008), ("TABLOID", 792, 1224)]

/-- Python `int()` on a rational: truncation toward zero. -/
def pyInt (q : ℚ) : ℤ :=
  if 0 ≤ q then ⌊q⌋ else ⌈q⌉

/-- The page-fitting computation from `PDFConverter._prepare_images`
(lines 72-85): given page dimensions `pw × ph` and image dimensions
`iw × ih`, compare aspect ratios and scale to page width (image wider)
or page height (image taller), deriving the other dimension with `int()`
truncation. -/
def fitDimensions (pw ph iw ih : Nat) : Nat × Nat :=
  let pageRatio : ℚ := (pw : ℚ) / (ph : ℚ)
  let imgRatio : ℚ := (iw : ℚ) / (ih : ℚ)
  if pageRatio < imgRatio then
    (pw, (pyInt ((pw : ℚ) / imgRatio)).toNat)
  else
    ((pyInt ((ph : ℚ) * imgRatio)).toNat, ph)

/-- The color-mode normalization from `_prepare_images` (lines 63-68):
RGBA images are pasted onto a white background using their alpha channel
as mask; any other non-RGB mode is converted to RGB directly. -/
def toRGB (img : Img) : Img :=
  if img.mode = Mode.RGBA then
    { width := img.width, height := img.height, mode := Mode.RGB,
      content := Content.whiteComposite img.content }
  else if img.mode ≠ Mode.RGB then
    { width := img.width, height := img.height, mode := Mode.RGB,
      content := Content.rgbConverted img.content }
  else img

/-- `img.resize((w, h), LANCZOS)`. -/
def resizeImg (img : Img) (w h : Nat) : Img :=
  { width := w, height := h, mode := img.mode, content := Content.resized w h img.content }

/-- How a prepared image is written to its temp file: `img.save(path)` plain,
or `img.save(path, quality=..., optimize=True)` when compression is on. -/
inductive SaveMode where
  | plain
  | compressed (quality : Nat)
  deriving DecidableEq, Repr

/-- A prepared image as written to the temp directory by `_prepare_images`. -/
structure PreparedImg where
  img : Img
  save : SaveMode
  deriving DecidableEq, Repr

/-- The per-image body of the `_prepare_images` loop (lines 61-93):
normalize the color mode, resize when a known fixed page size is requested,
then save plainly or with compression quality. -/
def prepareOne (pageSize : String) (compress : Bool) (quality : Nat) (img : Img) : PreparedImg :=
  let img1 := toRGB img
  let img2 :=
    if pageSize ≠ "FIT" then
      match List.lookup pageSize PAGE_SIZES with
      | some (pw, ph) =>
          let d := fitDimensions pw ph img1.width img1.height
          resizeImg img1 d.1 d.2
      | none => img1
    else img1
  { img := img2, save := if compress then SaveMode.compressed quality else SaveMode.plain }

/-- The accumulator loop of `_prepare_images`: `prepared_paths = []` followed
by `prepared_paths.append(...)` for each input image in order. -/
def prepareImagesLoop (pageSize : String) (compress : Bool) (quality : Nat) :
    List Img → List PreparedImg → List PreparedImg
  | [], acc => acc
  | img :: rest, acc =>
      prepareImagesLoop pageSize compress quality rest (acc ++ [prepareOne pageSize compress quality img])

/-- `PDFConverter._prepare_images`. -/
def prepare_images (imagePaths : List Img) (pageSize : String)
    (compress : Bool) (quality : Nat) : List PreparedImg :=
  prepareImagesLoop pageSize compress quality imagePaths []

/-- Errors raised by `convert_images_to_pdf`. -/
inductive ConvertError where
  | emptyInput
  | assemblyError
  deriving DecidableEq, Repr

/-- The observable outcome of one `convert_images_to_pdf` call: the returned
value or raised error, the prepared images written to the temp directory (in
write order), the output artifacts written (path together with the ordered
page list handed to `img2pdf.convert`), and the sequence of progress-callback
values. -/
structure ConvertResult where
  outcome : Except ConvertError String
  tempWrites : List PreparedImg
  outputWrites : List (String × List PreparedImg)
  progressCalls : List ℚ
  deriving Repr

/-- `PDFConverter.convert_images_to_pdf` (lines 120-155): raise on an empty
input list before anything is prepared or written; otherwise prepare all
images in order, write the single PDF whose pages are the prepared images in
input order, and invoke the callback once with `1.0` if one was supplied. -/
def convert_images_to_pdf (imagePaths : List Img) (outputPath : String)
    (pageSize : String) (compress : Bool) (quality : Nat)
    (hasCallback : Bool) : ConvertResult :=
  if imagePaths.isEmpty then
    { outcome := Except.error ConvertError.emptyInput,
      tempWrites := [], outputWrites := [], progressCalls := [] }
  else
    let prepared := prepare_images imagePaths pageSize compress quality
    { outcome := Except.ok outputPath,
      tempWrites := prepared,
      outputWrites := [(outputPath, prepared)],
      progressCalls := if hasCallback then [1] else [] }

/-! ## EXIF auto-rotation (`AdvancedImageProcessor.auto_rotate_image`) -/

/-- `img.rotate(deg, expand=True)`: rotating by 90 or 270 degrees swaps the
dimensions; 180 degrees keeps them. -/
def rotateImg (img : Img) (deg : Nat) : Img :=
  if deg = 90 ∨ deg = 270 then
    { width := img.height, height := img.width, mode := img.mode,
      content := Content.rotated deg img.content }
  else
    { width := img.width, height := img.height, mode := img.mode,
      content := Content.rotated deg img.content }

/-- The EXIF orientation tag id, `0x0112`. -/
def orientationTag : Nat := 274

/-- An image file together with its EXIF dictionary as returned by
`img._getexif()`: `none` when absent, otherwise tag/value pairs. -/
structure ExifImg where
  img : Img
  exif : Option (List (Nat × Nat))
  deriving Repr

/-- `AdvancedImageProcessor.auto_rotate_image` (lines 39-51), restricted to
the image value it saves: when the EXIF dictionary is present and non-empty
(Python truthiness of `if exif:`), look up the orientation tag and rotate by
180, 270 or 90 degrees for the tag values 3, 6 and 8 respectively; any other
value (or a missing tag) leaves the image unrotated. -/
def auto_rotate_image (f : ExifImg) : Img :=
  match f.exif with
  | none => f.img
  | some exif =>
      if exif.isEmpty then f.img
      else
        match List.lookup orientationTag exif with
        | some 3 => rotateImg f.img 180
        | some 6 => rotateImg f.img 270
        | some 8 => rotateImg f.img 90
        | _ => f.img

/-! ## Watermark opacity (`AdvancedImageProcessor.add_text_watermark`) -/

/-- `alpha = int(255 * opacity)` from `add_text_watermark` (line 121): the
alpha-channel value used in the `fill` of the watermark text. -/
def watermarkAlpha (opacity : ℚ) : ℤ :=
  pyInt (255 * opacity)

/-! ## Image validation (`ImageHandler.is_valid_image`) -/

/-- `ImageHandler.SUPPORTED_FORMATS`. -/
def SUPPORTED_FORMATS : List String :=
  [".jpg", ".jpeg", ".png", ".bmp", ".tiff", ".gif"]

/-- Index of the last occurrence of `c` in `l`, if any. -/
def lastIndexOf (c : Char) : List Char → Option Nat
  | [] => none
  | x :: xs =>
      match lastIndexOf c xs with
      | some i => some (i + 1)
      | none => if x = c then some 0 else none

/-- The index used by `str.rfind`: the last occurrence, or `-1`. -/
def rfindIdx (c : Char) (l : List Char) : ℤ :=
  match lastIndexOf c l with
  | some i => (i : ℤ)
  | none => -1

/-- The extension component of `os.path.splitext` (posix): the suffix from
the last dot, provided that dot comes after the last path separator and the
characters between the separator and the dot are not all dots (so dotfiles
like `.bashrc` have no extension). -/
def splitextExt (p : List Char) : List Char :=
  let sepIndex := rfindIdx '/' p
  let dotIndex := rfindIdx '.' p
  if sepIndex < dotIndex then
    let between := (p.drop (sepIndex + 1).toNat).take (dotIndex - sepIndex - 1).toNat
    if between.any (fun c => c ≠ '.') then p.drop dotIndex.toNat else []
  else []

/-- `str.lower`, character by character (ASCII, which covers the comparison
against the all-ASCII supported-format set). -/
def lowerChars (l : List Char) : List Char :=
  l.map Char.toLower

/-- The lowercased extension of a path, `os.path.splitext(p)[1].lower()`. -/
def extOf (p : String) : String :=
  String.mk (lowerChars (splitextExt p.data))

/-- `ImageHandler.is_valid_image` (lines 29-30): the lowercased extension
must belong to `SUPPORTED_FORMATS`. -/
def is_valid_image (p : String) : Bool :=
  decide (extOf p ∈ SUPPORTED_FORMATS)

/-! ## Plugin manager (`plugin_system.PluginManager`) -/

/-- What the manager knows and can observe about one discovered plugin:
its manifest name and `enabled` flag, whether importing the module,
resolving the class and passing the `PluginInterface` subclass check succeed
(`importOk`), and whether the instantiated plugin's `initialize()` returns
`True` rather than `False` or raising (`initOk`). -/
structure PluginDef where
  name : String
  enabled : Bool
  importOk : Bool
  initOk : Bool
  deriving DecidableEq, Repr

/-- Plugin-manager registry state: the names in `self.plugins` (the loaded
instances, in insertion order) and the discovered metadata list
(`self.plugin_metadata`, in discovery order). -/
structure PMState where
  plugins : List String
  metadata : List PluginDef
  deriving DecidableEq, Repr

/-- The observable result of one `load_plugin` call: its boolean return
value, the registry state afterwards, and whether a plugin instance was
constructed / `initialize()` was invoked during the call. -/
structure LoadResult where
  ok : Bool
  state : PMState
  instantiated : Bool
  initCalled : Bool
  deriving DecidableEq, Repr

/-- `self.plugin_metadata[plugin_name]` lookup (first metadata entry with
the given name). -/
def findMeta (m : List PluginDef) (name : String) : Option PluginDef :=
  m.find? (fun md => md.name = name)

/-- `PluginManager.load_plugin` (lines 209-263): return `True` at once when
the plugin is already loaded; fail when the name is unknown or the manifest
disables it; then import, instantiate and call `initialize()`, catching any
failure as a `False` return that leaves the registry unchanged; on success
store the instance and return `True`. -/
def load_plugin (s : PMState) (name : String) : LoadResult :=
  if name ∈ s.plugins then
    { ok := true, state := s, instantiated := false, initCalled := false }
  else
    match findMeta s.metadata name with
    | none => { ok := false, state := s, instantiated := false, initCalled := false }
    | some md =>
        if ¬ md.enabled then
          { ok := false, state := s, instantiated := false, initCalled := false }
        else if ¬ md.importOk then
          { ok := false, state := s, instantiated := false, initCalled := false }
        else if ¬ md.initOk then
          { ok := false, state := s, instantiated := true, initCalled := true }
        else
          { ok := true,
            state := { plugins := s.plugins ++ [name], metadata := s.metadata },
            instantiated := true, initCalled := true }

/-- The loop body of `load_all_plugins`: load each named plugin in order,
recording `results[plugin_name] = self.load_plugin(plugin_name)`. -/
def loadNames (s : PMState) : List String → List (String × Bool) × PMState
  | [] => ([], s)
  | n :: rest =>
      let r := load_plugin s n
      let rec' := loadNames r.state rest
      ((n, r.ok) :: rec'.1, rec'.2)

/-- `PluginManager.load_all_plugins` (lines 309-322): iterate over the
discovered metadata names in order, loading each one. -/
def load_all_plugins (s : PMState) : List (String × Bool) × PMState :=
  loadNames s (s.metadata.map (fun md => md.name))

/-- A plugin loads successfully from scratch exactly when its manifest
enables it, its import and class checks succeed, and `initialize()`
returns `True`. -/
def loadableIn (m : List PluginDef) (name : String) : Bool :=
  match findMeta m name with
  | some md => md.enabled && md.importOk && md.initOk
  | none => false

/-! ## Helper lemmas -/

/-- The append-accumulator loop of `_prepare_images` computes a map over the
input list. -/
theorem prepareImagesLoop_eq (pageSize : String) (compress : Bool) (quality : Nat) :
    ∀ (l : List Img) (acc : List PreparedImg),
      prepareImagesLoop pageSize compress quality l acc
        = acc ++ l.map (prepareOne pageSize compress quality) := by
  intro l
  induction l with
  | nil => intro acc; simp [prepareImagesLoop]
  | cons img rest ih => intro acc; simp [prepareImagesLoop, ih]

/-- `_prepare_images` is the element-wise preparation of the inputs, in
input order. -/
theorem prepare_images_eq_map (imgs : List Img) (pageSize : String)
    (compress : Bool) (quality : Nat) :
    prepare_images imgs pageSize compress quality
      = imgs.map (prepareOne pageSize compress quality) := by
  simp [prepare_images, prepareImagesLoop_eq]

/-! ## Claim theorems -/

/-- C1: for every non-empty input list, `convert_images_to_pdf` writes a
single PDF whose page list is exactly the element-wise prepared form of the
input list, and page `i` of that document is the prepared form of input
image `i` — the pipeline never reorders images. -/
theorem convert_pages_follow_input_order (imgs : List Img) (outputPath pageSize : String)
    (compress : Bool) (quality : Nat) (hasCallback : Bool) (h : imgs ≠ []) :
    (convert_images_to_pdf imgs outputPath pageSize compress quality hasCallback).outputWrites
      = [(outputPath, prepare_images imgs pageSize compress quality)] ∧
    ∀ i : Nat, (prepare_images imgs pageSize compress quality)[i]?
      = (imgs[i]?).map (prepareOne pageSize compress quality) := by
  refine ⟨?_, ?_⟩
  · rcases List.exists_cons_of_ne_nil h with ⟨a, as, rfl⟩
    rfl
  · intro i
    rw [prepare_images_eq_map]
    exact List.getElem?_map _ _ _

/-- Witness for C1 at a concrete two-image input. -/
theorem convert_pages_follow_input_order_witness :
    (convert_images_to_pdf
        [⟨10, 20, Mode.RGB, Content.source 0⟩, ⟨30, 40, Mode.RGBA, Content.source 1⟩]
        "out.pdf" "A4" false 85 true).outputWrites
      = [("out.pdf",
          prepare_images
            [⟨10, 20, Mode.RGB, Content.source 0⟩, ⟨30, 40, Mode.RGBA, Content.source 1⟩]
            "A4" false 85)] ∧
    ∀ i : Nat,
      (prepare_images
          [⟨10, 20, Mode.RGB, Content.source 0⟩, ⟨30, 40, Mode.RGBA, Content.source 1⟩]
          "A4" false 85)[i]?
        = (([⟨10, 20, Mode.RGB, Content.source 0⟩,
             ⟨30, 40, Mode.RGBA, Content.source 1⟩] : List Img)[i]?).map
            (prepareOne "A4" false 85) :=
  convert_pages_follow_input_order
    [⟨10, 20, Mode.RGB, Content.source 0⟩, ⟨30, 40, Mode.RGBA, Content.source 1⟩]
    "out.pdf" "A4" false 85 true (by decide)

/-- C3: converting an empty image list raises the empty-input error before
anything happens: no image is prepared, no temp file and no output artifact
is written, and no progress is reported. -/
theorem convert_empty_raises_and_writes_nothing (outputPath pageSize : String)
    (compress : Bool) (quality : Nat) (hasCallback : Bool) :
    convert_images_to_pdf [] outputPath pageSize compress quality hasCallback
      = { outcome := Except.error ConvertError.emptyInput,
          tempWrites := [], outputWrites := [], progressCalls := [] } := rfl

/-- C4 (counterexample): with two valid images and a callback supplied, the
converter's progress trace is exactly `[1.0]` — the intermediate value `1/2`
that the claim requires after the first prepared image is never reported. -/
theorem convert_progress_no_intermediate_values :
    (convert_images_to_pdf
        [⟨10, 20, Mode.RGB, Content.source 0⟩, ⟨30, 40, Mode.RGB, Content.source 1⟩]
        "out.pdf" "A4" false 85 true).progressCalls = [1] ∧
    ((1 : ℚ)/2) ∉ (convert_images_to_pdf
        [⟨10, 20, Mode.RGB, Content.source 0⟩, ⟨30, 40, Mode.RGB, Content.source 1⟩]
        "out.pdf" "A4" false 85 true).progressCalls := by
  refine ⟨rfl, ?_⟩
  rw [show (convert_images_to_pdf
        [⟨10, 20, Mode.RGB, Content.source 0⟩, ⟨30, 40, Mode.RGB, Content.source 1⟩]
        "out.pdf" "A4" false 85 true).progressCalls = [1] from rfl]
  simp

/-- C4 (amended): during a successful run the converter emits no per-image
progress at all; when a callback is supplied it is invoked exactly once,
after assembly, with the value 1.0, and without a callback nothing is
emitted. -/
theorem convert_progress_single_final_call (imgs : List Img) (outputPath pageSize : String)
    (compress : Bool) (quality : Nat) (h : imgs ≠ []) :
    (convert_images_to_pdf imgs outputPath pageSize compress quality true).progressCalls = [1] ∧
    (convert_images_to_pdf imgs outputPath pageSize compress quality false).progressCalls = [] := by
  rcases List.exists_cons_of_ne_nil h with ⟨a, as, rfl⟩
  exact ⟨rfl, rfl⟩

/-- Witness for the amended C4 at a concrete one-image input. -/
theorem convert_progress_single_final_call_witness :
    (convert_images_to_pdf [⟨10, 20, Mode.RGB, Content.source 0⟩]
        "out.pdf" "LETTER" true 40 true).progressCalls = [1] ∧
    (convert_images_to_pdf [⟨10, 20, Mode.RGB, Content.source 0⟩]
        "out.pdf" "LETTER" true 40 false).progressCalls = [] :=
  convert_progress_single_final_call [⟨10, 20, Mode.RGB, Content.source 0⟩]
    "out.pdf" "LETTER" true 40 (by decide)

/-- C5: auto-rotation applies exactly the mapping read off the EXIF
orientation tag — 3 rotates by 180° (dimensions kept), 6 rotates by 270°
and 8 rotates by 90° (dimensions swapped), and any other tag value leaves
the image unchanged. -/
theorem auto_rotate_orientation_mapping (f : ExifImg) (exif : List (Nat × Nat)) (o : Nat)
    (hx : f.exif = some exif) (ho : List.lookup orientationTag exif = some o) :
    auto_rotate_image f =
      if o = 3 then
        { width := f.img.width, height := f.img.height, mode := f.img.mode,
          content := Content.rotated 180 f.img.content }
      else if o = 6 then
        { width := f.img.height, height := f.img.width, mode := f.img.mode,
          content := Content.rotated 270 f.img.content }
      else if o = 8 then
        { width := f.img.height, height := f.img.width, mode := f.img.mode,
          content := Content.rotated 90 f.img.content }
      else f.img := by
  have hne : exif.isEmpty = false := by
    cases exif with
    | nil => simp [List.lookup] at ho
    | cons a l => rfl
  simp only [auto_rotate_image, hx, hne, ho, Bool.false_eq_true, if_false]
  by_cases h3 : o = 3
  · subst h3; simp [rotateImg]
  · by_cases h6 : o = 6
    · subst h6; simp [rotateImg]
    · by_cases h8 : o = 8
      · subst h8; simp [rotateImg]
      · simp [h3, h6, h8]

/-- Witness for C5 at a concrete image with orientation tag 6. -/
theorem auto_rotate_orientation_mapping_witness :
    auto_rotate_image ⟨⟨10, 20, Mode.RGB, Content.source 0⟩, some [(274, 6)]⟩ =
      if 6 = 3 then
        { width := 10, height := 20, mode := Mode.RGB,
          content := Content.rotated 180 (Content.source 0) }
      else if 6 = 6 then
        { width := 20, height := 10, mode := Mode.RGB,
          content := Content.rotated 270 (Content.source 0) }
      else if 6 = 8 then
        { width := 20, height := 10, mode := Mode.RGB,
          content := Content.rotated 90 (Content.source 0) }
      else ⟨10, 20, Mode.RGB, Content.source 0⟩ :=
  auto_rotate_orientation_mapping ⟨⟨10, 20, Mode.RGB, Content.source 0⟩, some [(274, 6)]⟩
    [(274, 6)] 6 rfl rfl

/-- C6: validity of an image file is decided solely by its lowercased
extension, and the outcome is exactly membership of that extension in the
fixed supported-format set. -/
theorem is_valid_image_iff_extension (p : String) :
    (is_valid_image p = true ↔ extOf p ∈ SUPPORTED_FORMATS) ∧
    (∀ q : String, extOf p = extOf q → is_valid_image p = is_valid_image q) := by
  refine ⟨by simp [is_valid_image], ?_⟩
  intro q h
  simp [is_valid_image, h]

/-- Witness for C6: two paths with the same lowercased extension get the
same verdict, and the verdict matches membership. -/
theorem is_valid_image_iff_extension_witness :
    is_valid_image "photo.JPG" = is_valid_image "scans/page.jpg" ∧
    (is_valid_image "photo.JPG" = true ↔ extOf "photo.JPG" ∈ SUPPORTED_FORMATS) :=
  ⟨(is_valid_image_iff_extension "photo.JPG").2 "scans/page.jpg" (by decide),
   (is_valid_image_iff_extension "photo.JPG").1⟩

/-- Preparation without compression saves plainly, independent of the
quality argument. -/
theorem prepareOne_quality_irrelevant (pageSize : String) (q1 q2 : Nat) (img : Img) :
    prepareOne pageSize false q1 img = prepareOne pageSize false q2 img := by
  simp [prepareOne]

/-- C9: with compression disabled, the prepared output is identical for any
two compression-quality values — quality has no influence on the result. -/
theorem prepare_images_ignores_quality_when_uncompressed (imgs : List Img)
    (pageSize : String) (q1 q2 : Nat) :
    prepare_images imgs pageSize false q1 = prepare_images imgs pageSize false q2 := by
  rw [prepare_images_eq_map, prepare_images_eq_map]
  exact List.map_congr_left (fun img _ => prepareOne_quality_irrelevant pageSize q1 q2 img)

/-- C7 (counterexample): at opacity 0.29 the code computes
`int(255 * 0.29) = 73`, while rounding to the nearest integer gives 74 —
the watermark alpha is not `round(255 × opacity)`. -/
theorem watermarkAlpha_differs_from_round :
    watermarkAlpha (29/100) = 73 ∧ round ((255 : ℚ) * (29/100)) = 74 ∧
    watermarkAlpha (29/100) ≠ round ((255 : ℚ) * (29/100)) := by
  refine ⟨?_, ?_, ?_⟩
  · norm_num [watermarkAlpha, pyInt]
  · norm_num [round_eq]
  · norm_num [watermarkAlpha, pyInt, round_eq]

/-- C7 (amended): the watermark alpha is the truncation `⌊255 × opacity⌋`:
for every opacity in [0,1] it is the greatest integer not exceeding
`255 × opacity`, and it lies within [0, 255]. -/
theorem watermarkAlpha_truncates (opacity : ℚ) (h0 : 0 ≤ opacity) (h1 : opacity ≤ 1) :
    0 ≤ watermarkAlpha opacity ∧ watermarkAlpha opacity ≤ 255 ∧
    (watermarkAlpha opacity : ℚ) ≤ 255 * opacity ∧
    255 * opacity < (watermarkAlpha opacity : ℚ) + 1 := by
  have hq : (0 : ℚ) ≤ 255 * opacity := by positivity
  have hub : (255 : ℚ) * opacity ≤ 255 := by nlinarith
  simp only [watermarkAlpha, pyInt, if_pos hq]
  refine ⟨Int.floor_nonneg.mpr hq, ?_, Int.floor_le _, Int.lt_floor_add_one _⟩
  have h := Int.floor_le_floor hub
  simpa using h

/-- Witness for the amended C7 at opacity 0.7. -/
theorem watermarkAlpha_truncates_witness :
    0 ≤ watermarkAlpha (7/10) ∧ watermarkAlpha (7/10) ≤ 255 ∧
    (watermarkAlpha (7/10) : ℚ) ≤ 255 * (7/10) ∧
    255 * (7/10) < (watermarkAlpha (7/10) : ℚ) + 1 :=
  watermarkAlpha_truncates (7/10) (by norm_num) (by norm_num)

/-- `load_plugin` never touches the discovered-metadata table. -/
theorem load_plugin_metadata_eq (s : PMState) (n : String) :
    (load_plugin s n).state.metadata = s.metadata := by
  unfold load_plugin
  split
  · rfl
  · cases findMeta s.metadata n with
    | none => rfl
    | some md =>
        by_cases he : md.enabled <;> by_cases hi : md.importOk <;> by_cases ho : md.initOk <;>
          simp [he, hi, ho]

/-- One `load_plugin` call on a not-yet-loaded plugin: the boolean result is
exactly the plugin's standalone loadability, and the registry gains the
plugin precisely on success. -/
theorem load_plugin_spec (s : PMState) (n : String) (h : n ∉ s.plugins) :
    (load_plugin s n).ok = loadableIn s.metadata n ∧
    (load_plugin s n).state =
      ⟨if loadableIn s.metadata n then s.plugins ++ [n] else s.plugins, s.metadata⟩ := by
  unfold load_plugin loadableIn
  rw [if_neg h]
  cases findMeta s.metadata n with
  | none => simp
  | some md =>
      by_cases he : md.enabled <;> by_cases hi : md.importOk <;> by_cases ho : md.initOk <;>
        simp [he, hi, ho]

/-- Loading a list of distinct, not-yet-loaded plugin names in order: each
name's recorded result is its own standalone loadability, and the final
loaded set is the initial one extended by exactly the loadable names, in
order. -/
theorem loadNames_spec (m : List PluginDef) :
    ∀ (ns : List String) (pl : List String), ns.Nodup → (∀ x ∈ ns, x ∉ pl) →
      (loadNames ⟨pl, m⟩ ns).1 = ns.map (fun n => (n, loadableIn m n)) ∧
      (loadNames ⟨pl, m⟩ ns).2 = ⟨pl ++ ns.filter (fun n => loadableIn m n), m⟩ := by
  intro ns
  induction ns with
  | nil => intro pl _ _; simp [loadNames]
  | cons n rest ih =>
      intro pl hnd hdis
      have hn : n ∉ pl := hdis n (by simp)
      obtain ⟨hok, hst⟩ := load_plugin_spec ⟨pl, m⟩ n hn
      have hrest : rest.Nodup := (List.nodup_cons.mp hnd).2
      have hnmem : n ∉ rest := (List.nodup_cons.mp hnd).1
      by_cases hl : loadableIn m n
      · have hdis' : ∀ x ∈ rest, x ∉ pl ++ [n] := by
          intro x hx
          simp only [List.mem_append, List.mem_singleton]
          rintro (hxp | rfl)
          · exact hdis x (by simp [hx]) hxp
          · exact hnmem hx
        obtain ⟨ih1, ih2⟩ := ih (pl ++ [n]) hrest hdis'
        rw [if_pos hl] at hst
        simp only [loadNames, hst, hok, ih1, ih2]
        constructor
        · simp [hl]
        · simp [hl, List.filter_cons]
      · have hdis' : ∀ x ∈ rest, x ∉ pl := fun x hx => hdis x (by simp [hx])
        obtain ⟨ih1, ih2⟩ := ih pl hrest hdis'
        rw [if_neg hl] at hst
        simp only [loadNames, hst, hok, ih1, ih2]
        constructor
        · simp [hl]
        · simp [hl, List.filter_cons]

/-- With distinct metadata names, looking a plugin's own name up in the
metadata table finds its entry. -/
theorem findMeta_of_nodup (m : List PluginDef)
    (hnd : (m.map (fun md => md.name)).Nodup) (md : PluginDef) (hmem : md ∈ m) :
    findMeta m md.name = some md := by
  induction m with
  | nil => cases hmem
  | cons a rest ih =>
      simp only [List.map_cons, List.nodup_cons] at hnd
      rcases List.mem_cons.mp hmem with rfl | hmd
      · simp [findMeta]
      · have hne : a.name ≠ md.name := by
          intro hcontra
          exact hnd.1 (hcontra ▸ List.mem_map_of_mem (fun x => x.name) hmd)
        unfold findMeta
        rw [List.find?_cons_of_neg _ (by simpa using hne)]
        exact ih hnd.2 hmd

/-- Looking a present name up in the tabulated result list yields the
tabulating function's value at that name. -/
theorem lookup_map_pair (f : String → Bool) :
    ∀ (ns : List String) (n : String), n ∈ ns →
      (ns.map (fun x => (x, f x))).lookup n = some (f n) := by
  intro ns
  induction ns with
  | nil => intro n h; cases h
  | cons a rest ih =>
      intro n hmem
      by_cases hna : n = a
      · subst hna
        simp [List.lookup]
      · have hrest : n ∈ rest := by
          rcases List.mem_cons.mp hmem with h | h
          · exact absurd h hna
          · exact h
        have hfalse : (n == a) = false := by simpa using hna
        simp only [List.map_cons, List.lookup, hfalse]
        exact ih n hrest

/-- C8: loading all discovered plugins from a fresh registry: every
plugin's recorded result is decided by its own flags alone (manifest
`enabled`, import/class check, `initialize()` outcome) — so a plugin whose
`initialize()` fails gets result `false` and is excluded from the loaded
set, while every other plugin in the discovery list loads or fails exactly
according to its own flags, unaffected by the failure. -/
theorem load_all_plugins_isolates_failures (s : PMState)
    (hempty : s.plugins = []) (hnd : (s.metadata.map (fun md => md.name)).Nodup) :
    ∀ md ∈ s.metadata,
      (load_all_plugins s).1.lookup md.name = some (md.enabled && md.importOk && md.initOk) ∧
      (md.name ∈ (load_all_plugins s).2.plugins ↔ (md.enabled && md.importOk && md.initOk) = true) := by
  intro md hmem
  obtain ⟨pl, m⟩ := s
  simp only at hempty
  subst hempty
  have hspec := loadNames_spec m (m.map (fun md => md.name)) [] hnd (by simp)
  have hname : md.name ∈ m.map (fun md => md.name) := List.mem_map_of_mem _ hmem
  have hload : loadableIn m md.name = (md.enabled && md.importOk && md.initOk) := by
    unfold loadableIn
    rw [findMeta_of_nodup m hnd md hmem]
  constructor
  · rw [show load_all_plugins ⟨[], m⟩ = loadNames ⟨[], m⟩ (m.map (fun md => md.name)) from rfl]
    rw [hspec.1, lookup_map_pair _ _ _ hname, hload]
  · rw [show load_all_plugins ⟨[], m⟩ = loadNames ⟨[], m⟩ (m.map (fun md => md.name)) from rfl]
    rw [hspec.2]
    simp only [List.nil_append, List.mem_filter]
    constructor
    · rintro ⟨-, hf⟩
      rw [← hload]
      simpa using hf
    · intro hf
      exact ⟨hname, by simp [hload, hf]⟩

/-- Witness for C8: three discovered plugins where the middle one's
`initialize()` fails; the plugin after it still loads. -/
theorem load_all_plugins_isolates_failures_witness :
    ((load_all_plugins ⟨[], [⟨"fxA", true, true, true⟩, ⟨"fxB", true, true, false⟩,
        ⟨"fxC", true, true, true⟩]⟩).1.lookup "fxC" = some (true && true && true) ∧
      ("fxC" ∈ (load_all_plugins ⟨[], [⟨"fxA", true, true, true⟩, ⟨"fxB", true, true, false⟩,
        ⟨"fxC", true, true, true⟩]⟩).2.plugins ↔ (true && true && true) = true)) :=
  load_all_plugins_isolates_failures
    ⟨[], [⟨"fxA", true, true, true⟩, ⟨"fxB", true, true, false⟩, ⟨"fxC", true, true, true⟩]⟩
    rfl (by decide) ⟨"fxC", true, true, true⟩ (by decide)

/-- C10: `load_plugin` is idempotent on the registry: calling it on an
already-loaded plugin returns `true` without instantiating a plugin object
or invoking `initialize()`, and leaves the loaded-plugin map unchanged;
consequently a second `load_plugin` never changes the registry state
reached by the first. -/
theorem load_plugin_idempotent (s : PMState) (name : String) :
    (name ∈ s.plugins →
       load_plugin s name =
         { ok := true, state := s, instantiated := false, initCalled := false }) ∧
    (load_plugin (load_plugin s name).state name).state = (load_plugin s name).state := by
  constructor
  · intro h
    simp [load_plugin, h]
  · by_cases h : name ∈ s.plugins
    · simp [load_plugin, h]
    · obtain ⟨-, hst⟩ := load_plugin_spec s name h
      rw [hst]
      by_cases hl : loadableIn s.metadata name
      · rw [if_pos hl]
        have hmem : name ∈ s.plugins ++ [name] := by simp
        simp [load_plugin, hmem]
      · rw [if_neg hl]
        obtain ⟨-, hst2⟩ := load_plugin_spec ⟨s.plugins, s.metadata⟩ name h
        rw [hst2, if_neg hl]

/-- Witness for C10: re-loading an already-loaded plugin. -/
theorem load_plugin_idempotent_witness :
    load_plugin ⟨["fx"], []⟩ "fx" =
      { ok := true, state := ⟨["fx"], []⟩, instantiated := false, initCalled := false } ∧
    (load_plugin (load_plugin ⟨["fx"], []⟩ "fx").state "fx").state
      = (load_plugin ⟨["fx"], []⟩ "fx").state :=
  ⟨(load_plugin_idempotent ⟨["fx"], []⟩ "fx").1 (by decide),
   (load_plugin_idempotent ⟨["fx"], []⟩ "fx").2⟩

/-- The fitting computation for any positive page and image dimensions:
both fitted dimensions stay within the page, and in each aspect-ratio
branch one dimension equals the page bound while the other is the
truncation of the value derived from the image ratio. -/
theorem fitDimensions_spec (pw ph iw ih : Nat)
    (hpw : 0 < pw) (hph : 0 < ph) (hiw : 0 < iw) (hih : 0 < ih) :
    (fitDimensions pw ph iw ih).1 ≤ pw ∧ (fitDimensions pw ph iw ih).2 ≤ ph ∧
    ((pw : ℚ) / (ph : ℚ) < (iw : ℚ) / (ih : ℚ) →
       (fitDimensions pw ph iw ih).1 = pw ∧
       ((fitDimensions pw ph iw ih).2 : ℚ) ≤ (pw : ℚ) / ((iw : ℚ) / (ih : ℚ)) ∧
       (pw : ℚ) / ((iw : ℚ) / (ih : ℚ)) < ((fitDimensions pw ph iw ih).2 : ℚ) + 1) ∧
    ((iw : ℚ) / (ih : ℚ) ≤ (pw : ℚ) / (ph : ℚ) →
       (fitDimensions pw ph iw ih).2 = ph ∧
       ((fitDimensions pw ph iw ih).1 : ℚ) ≤ (ph : ℚ) * ((iw : ℚ) / (ih : ℚ)) ∧
       (ph : ℚ) * ((iw : ℚ) / (ih : ℚ)) < ((fitDimensions pw ph iw ih).1 : ℚ) + 1) := by
  have hpwQ : (0 : ℚ) < (pw : ℚ) := by exact_mod_cast hpw
  have hphQ : (0 : ℚ) < (ph : ℚ) := by exact_mod_cast hph
  have hiwQ : (0 : ℚ) < (iw : ℚ) := by exact_mod_cast hiw
  have hihQ : (0 : ℚ) < (ih : ℚ) := by exact_mod_cast hih
  have hpr : (0 : ℚ) < (pw : ℚ) / (ph : ℚ) := div_pos hpwQ hphQ
  have hir : (0 : ℚ) < (iw : ℚ) / (ih : ℚ) := div_pos hiwQ hihQ
  by_cases hlt : (pw : ℚ) / (ph : ℚ) < (iw : ℚ) / (ih : ℚ)
  · have hx0 : (0 : ℚ) ≤ (pw : ℚ) / ((iw : ℚ) / (ih : ℚ)) := le_of_lt (div_pos hpwQ hir)
    have hfit : fitDimensions pw ph iw ih
        = (pw, (pyInt ((pw : ℚ) / ((iw : ℚ) / (ih : ℚ)))).toNat) := by
      simp [fitDimensions, hlt]
    have hpy : pyInt ((pw : ℚ) / ((iw : ℚ) / (ih : ℚ)))
        = ⌊(pw : ℚ) / ((iw : ℚ) / (ih : ℚ))⌋ := by
      simp [pyInt, hx0]
    have hfl0 : 0 ≤ ⌊(pw : ℚ) / ((iw : ℚ) / (ih : ℚ))⌋ := Int.floor_nonneg.mpr hx0
    have hcast : (((pyInt ((pw : ℚ) / ((iw : ℚ) / (ih : ℚ)))).toNat : ℕ) : ℚ)
        = (⌊(pw : ℚ) / ((iw : ℚ) / (ih : ℚ))⌋ : ℚ) := by
      rw [hpy]
      exact_mod_cast Int.toNat_of_nonneg hfl0
    have hxlt : (pw : ℚ) / ((iw : ℚ) / (ih : ℚ)) < (ph : ℚ) := by
      have h1 : (pw : ℚ) / ((iw : ℚ) / (ih : ℚ)) < (pw : ℚ) / ((pw : ℚ) / (ph : ℚ)) :=
        div_lt_div_of_pos_left hpwQ hpr hlt
      have h2 : (pw : ℚ) / ((pw : ℚ) / (ph : ℚ)) = (ph : ℚ) := by
        field_simp
      linarith
    have hd2le : (pyInt ((pw : ℚ) / ((iw : ℚ) / (ih : ℚ)))).toNat ≤ ph := by
      rw [hpy, Int.toNat_le]
      have : (⌊(pw : ℚ) / ((iw : ℚ) / (ih : ℚ))⌋ : ℚ) < (ph : ℚ) :=
        lt_of_le_of_lt (Int.floor_le _) hxlt
      exact_mod_cast le_of_lt this
    refine ⟨?_, ?_, ?_, ?_⟩
    · rw [hfit]
    · rw [hfit]; exact hd2le
    · intro _
      refine ⟨by rw [hfit], ?_, ?_⟩
      · rw [hfit]
        simp only
        rw [hcast]
        exact Int.floor_le _
      · rw [hfit]
        simp only
        rw [hcast]
        exact Int.lt_floor_add_one _
    · intro hc
      exact absurd hlt (not_lt.mpr hc)
  · have hle : (iw : ℚ) / (ih : ℚ) ≤ (pw : ℚ) / (ph : ℚ) := le_of_not_lt hlt
    have hx0 : (0 : ℚ) ≤ (ph : ℚ) * ((iw : ℚ) / (ih : ℚ)) :=
      le_of_lt (mul_pos hphQ hir)
    have hfit : fitDimensions pw ph iw ih
        = ((pyInt ((ph : ℚ) * ((iw : ℚ) / (ih : ℚ)))).toNat, ph) := by
      simp [fitDimensions, hlt]
    have hpy : pyInt ((ph : ℚ) * ((iw : ℚ) / (ih : ℚ)))
        = ⌊(ph : ℚ) * ((iw : ℚ) / (ih : ℚ))⌋ := by
      simp [pyInt, hx0]
    have hfl0 : 0 ≤ ⌊(ph : ℚ) * ((iw : ℚ) / (ih : ℚ))⌋ := Int.floor_nonneg.mpr hx0
    have hcast : (((pyInt ((ph : ℚ) * ((iw : ℚ) / (ih : ℚ)))).toNat : ℕ) : ℚ)
        = (⌊(ph : ℚ) * ((iw : ℚ) / (ih : ℚ))⌋ : ℚ) := by
      rw [hpy]
      exact_mod_cast Int.toNat_of_nonneg hfl0
    have hxle : (ph : ℚ) * ((iw : ℚ) / (ih : ℚ)) ≤ (pw : ℚ) := by
      have h1 : (ph : ℚ) * ((iw : ℚ) / (ih : ℚ)) ≤ (ph : ℚ) * ((pw : ℚ) / (ph : ℚ)) :=
        mul_le_mul_of_nonneg_left hle (le_of_lt hphQ)
      have h2 : (ph : ℚ) * ((pw : ℚ) / (ph : ℚ)) = (pw : ℚ) := by
        field_simp
      linarith
    have hd1le : (pyInt ((ph : ℚ) * ((iw : ℚ) / (ih : ℚ)))).toNat ≤ pw := by
      rw [hpy, Int.toNat_le]
      have : (⌊(ph : ℚ) * ((iw : ℚ) / (ih : ℚ))⌋ : ℚ) ≤ (pw : ℚ) :=
        le_trans (Int.floor_le _) hxle
      exact_mod_cast this
    refine ⟨?_, ?_, ?_, ?_⟩
    · rw [hfit]; exact hd1le
    · rw [hfit]
    · intro hc
      exact absurd hc hlt
    · intro _
      refine ⟨by rw [hfit], ?_, ?_⟩
      · rw [hfit]
        simp only
        rw [hcast]
        exact Int.floor_le _
      · rw [hfit]
        simp only
        rw [hcast]
        exact Int.lt_floor_add_one _

/-- C2: for every image with positive dimensions and every named fixed page
size, the fitted dimensions never exceed the page bounds in either axis,
and the fit follows the aspect-ratio rule: if the image ratio exceeds the
page ratio the new width equals the page width and the new height is
derived (within one unit, by truncation) from the page width divided by the
image ratio; otherwise the new height equals the page height and the new
width is derived from the page height times the image ratio. -/
theorem named_page_fit_bounds (nm : String) (pw ph : Nat)
    (hmem : (nm, pw, ph) ∈ PAGE_SIZES) (iw ih : Nat) (hiw : 0 < iw) (hih : 0 < ih) :
    (fitDimensions pw ph iw ih).1 ≤ pw ∧ (fitDimensions pw ph iw ih).2 ≤ ph ∧
    ((pw : ℚ) / (ph : ℚ) < (iw : ℚ) / (ih : ℚ) →
       (fitDimensions pw ph iw ih).1 = pw ∧
       ((fitDimensions pw ph iw ih).2 : ℚ) ≤ (pw : ℚ) / ((iw : ℚ) / (ih : ℚ)) ∧
       (pw : ℚ) / ((iw : ℚ) / (ih : ℚ)) < ((fitDimensions pw ph iw ih).2 : ℚ) + 1) ∧
    ((iw : ℚ) / (ih : ℚ) ≤ (pw : ℚ) / (ph : ℚ) →
       (fitDimensions pw ph iw ih).2 = ph ∧
       ((fitDimensions pw ph iw ih).1 : ℚ) ≤ (ph : ℚ) * ((iw : ℚ) / (ih : ℚ)) ∧
       (ph : ℚ) * ((iw : ℚ) / (ih : ℚ)) < ((fitDimensions pw ph iw ih).1 : ℚ) + 1) := by
  have hpos : 0 < pw ∧ 0 < ph := by
    simp only [PAGE_SIZES, List.mem_cons, Prod.mk.injEq, List.not_mem_nil, or_false] at hmem
    rcases hmem with ⟨-, rfl, rfl⟩ | ⟨-, rfl, rfl⟩ | ⟨-, rfl, rfl⟩ | ⟨-, rfl, rfl⟩ <;>
      exact ⟨by norm_num, by norm_num⟩
  exact fitDimensions_spec pw ph iw ih hpos.1 hpos.2 hiw hih

/-- Witness for C2: a 100×50 image fitted to A4. -/
theorem named_page_fit_bounds_witness :
    (fitDimensions 595 842 100 50).1 ≤ 595 ∧ (fitDimensions 595 842 100 50).2 ≤ 842 ∧
    ((595 : ℚ) / (842 : ℚ) < (100 : ℚ) / (50 : ℚ) →
       (fitDimensions 595 842 100 50).1 = 595 ∧
       ((fitDimensions 595 842 100 50).2 : ℚ) ≤ (595 : ℚ) / ((100 : ℚ) / (50 : ℚ)) ∧
       (595 : ℚ) / ((100 : ℚ) / (50 : ℚ)) < ((fitDimensions 595 842 100 50).2 : ℚ) + 1) ∧
    ((100 : ℚ) / (50 : ℚ) ≤ (595 : ℚ) / (842 : ℚ) →
       (fitDimensions 595 842 100 50).2 = 842 ∧
       ((fitDimensions 595 842 100 50).1 : ℚ) ≤ (842 : ℚ) * ((100 : ℚ) / (50 : ℚ)) ∧
       (842 : ℚ) * ((100 : ℚ) / (50 : ℚ)) < ((fitDimensions 595 842 100 50).1 : ℚ) + 1) :=
  named_page_fit_bounds "A4" 595 842 (by decide) 100 50 (by decide) (by decide)

end ImagePdf
